import Mathlib

/-!
# Verification of the synth-summarize processing pipeline

A shallow embedding of the audio-summarization backend
(`api/src/services/processor.ts`, `api/src/services/openai.ts`,
`api/src/routes/upload.ts`, types from `api/src/types/index.ts`), together
with theorems settling the spec's claims about the job lifecycle, the
queue drain, progress monotonicity, temp-file cleanup, the estimated-time
heuristic, confidence calculation and chapter handling.

Numbers that are JavaScript doubles in the source are modelled as `ℚ`
(every literal and every product/sum/quotient appearing in the relevant
code paths rounds to the same integer outputs in IEEE doubles as in exact
rational arithmetic, so the integer-valued observables coincide).
JavaScript `Math.round` rounds half-up towards `+∞`, modelled by `jsRound`.
Wall-clock `Date` values are modelled as abstract `Nat` ticks.
-/

namespace SynthSummarize

/-- JavaScript `Math.round`: round half away from zero towards `+∞`,
i.e. `⌊q + 1/2⌋`. -/
def jsRound (q : ℚ) : Int := ⌊q + 1/2⌋

/-- `Math.round(q * 100) / 100` — round to two decimal places. -/
def jsRound2 (q : ℚ) : ℚ := (jsRound (q * 100) : ℚ) / 100

/-! ## Data model (from `api/src/types/index.ts`) -/

/-- `type JobStatus = 'queued' | 'processing' | 'completed' | 'failed'`. -/
inductive JobStatus
  | queued
  | processing
  | completed
  | failed
  deriving DecidableEq, Repr

/-- `type UploadType = 'file' | 'url'`. -/
inductive UploadType
  | file
  | url
  deriving DecidableEq, Repr

/-- `type DetailLevel = 'brief' | 'standard' | 'deep'`. -/
inductive DetailLevel
  | brief
  | standard
  | deep
  deriving DecidableEq, Repr

/-- `importance: 'high' | 'medium' | 'low'` (field of `KeyPoint`). -/
inductive Importance
  | high
  | medium
  | low
  deriving DecidableEq, Repr

/-- `interface UploadOptions { lang?: string; detail: DetailLevel; timestamps: boolean }`. -/
structure UploadOptions where
  lang : Option String
  detail : DetailLevel
  timestamps : Bool
  deriving DecidableEq, Repr

/-- `interface Timestamp { start; end; text; confidence? }` — a transcript
segment. The source field `end` is a Lean keyword, rendered `endTime`. -/
structure Timestamp where
  start : ℚ
  endTime : ℚ
  text : String
  confidence : Option ℚ
  deriving DecidableEq, Repr

/-- `interface KeyPoint { title; description; timestamp?; importance }`. -/
structure KeyPoint where
  title : String
  description : String
  timestamp : Option ℚ
  importance : Importance
  deriving DecidableEq, Repr

/-- `interface Chapter { title; start; end; summary; keyPoints }`.
The source field `end` is rendered `endTime`. -/
structure Chapter where
  title : String
  start : ℚ
  endTime : ℚ
  summary : String
  keyPoints : List String
  deriving DecidableEq, Repr

/-- `interface AudioMetadata { format; duration; size; ... }` (the fields
`getAudioMetadata` actually populates). -/
structure AudioMetadata where
  format : String
  duration : ℚ
  size : Nat
  deriving DecidableEq, Repr

/-- `interface ProcessingJob` — the job record held in the registry.
`createdAt`/`updatedAt`/`completedAt` are wall-clock Dates in the source,
modelled as abstract `Nat` ticks. The source field `type` is kept. -/
structure ProcessingJob where
  id : String
  userId : String
  type : UploadType
  status : JobStatus
  progress : Nat
  originalFile : Option String
  url : Option String
  options : UploadOptions
  error : Option String
  createdAt : Nat
  updatedAt : Nat
  completedAt : Option Nat
  deriving DecidableEq, Repr

/-- `interface TranscriptionResponse { text; language; duration; segments?; confidence }`
as actually constructed by `transcribeAudio` (segments always present). -/
structure TranscriptionResponse where
  text : String
  language : String
  duration : ℚ
  segments : List Timestamp
  confidence : ℚ
  deriving DecidableEq, Repr

/-- `interface SummarizationResponse` — `chapters?: Chapter[]` is optional,
hence `Option`. -/
structure SummarizationResponse where
  overview : String
  keyTakeaways : List String
  keyPoints : List KeyPoint
  actionItems : List String
  quotes : List String
  chapters : Option (List Chapter)
  tags : List String
  confidence : ℚ
  deriving DecidableEq, Repr

/-- `interface Summary` — the final artifact assembled in `processJob`
step 6 (only the fields that assembly populates; `chapters?` is optional,
hence `Option`; Dates are modelled as ticks and elided). -/
structure Summary where
  id : String
  userId : String
  jobId : String
  title : String
  originalUrl : Option String
  originalFileName : Option String
  duration : ℚ
  language : String
  detailLevel : DetailLevel
  overview : String
  keyTakeaways : List String
  keyPoints : List KeyPoint
  actionItems : List String
  quotes : List String
  transcript : String
  timestamps : List Timestamp
  chapters : Option (List Chapter)
  wordCount : Nat
  confidence : ℚ
  tags : List String
  deriving DecidableEq, Repr

/-- `interface UploadRequest { type; file?; url?; options }`. The multer
file handle is represented by its stored filename. -/
structure UploadRequest where
  type : UploadType
  file : Option String
  url : Option String
  options : UploadOptions
  deriving DecidableEq, Repr

/-! ## `routes/upload.ts`: the estimated-time heuristic -/

/-- `ProcessorService.estimateProcessingTime` (routes/upload.ts, lines
337–364): base 60, `*= 0.7` for brief / `*= 1.5` for deep, `*= 1.2` when
timestamps are requested, `+= 30` for `url` sources, then `Math.round`. -/
def estimateProcessingTime (request : UploadRequest) : Int :=
  let baseTime : ℚ := 60
  let baseTime : ℚ :=
    match request.options.detail with
    | .brief => baseTime * (7/10)
    | .deep => baseTime * (3/2)
    | .standard => baseTime
  let baseTime : ℚ := if request.options.timestamps then baseTime * (6/5) else baseTime
  let baseTime : ℚ := if request.type = .url then baseTime + 30 else baseTime
  jsRound baseTime

/-- The estimated-time heuristic as the spec words it (§6/§8): base 60s,
×0.7 for brief / ×1.5 for deep / unchanged for standard, ×1.2 additional
when timestamps are requested, rounded, plus a flat 30s for `url` sources.
Stated from the spec's words, for comparison with the source function. -/
def estimateTimeSpec (detail : DetailLevel) (timestamps : Bool) (type : UploadType) : Int :=
  let detailFactor : ℚ :=
    match detail with
    | .brief => 7/10
    | .deep => 3/2
    | .standard => 1
  let tsFactor : ℚ := if timestamps then 6/5 else 1
  jsRound (60 * detailFactor * tsFactor) + (if type = .url then 30 else 0)

/-! ## `services/openai.ts`: confidence and response assembly -/

/-- `OpenAIService.calculateOverallConfidence` (openai.ts, lines 256–267):
0.8 for an empty segment list, 0.8 when no segment carries a confidence,
otherwise the average of the present confidences rounded to two decimals. -/
def calculateOverallConfidence (segments : List Timestamp) : ℚ :=
  if segments.length = 0 then 4/5
  else
    let confidences := segments.filterMap (fun segment => segment.confidence)
    if confidences.length = 0 then 4/5
    else jsRound2 (confidences.sum / confidences.length)

/-- `finish_reason` of the chat completion's first choice, as inspected by
`calculateSummaryConfidence`. -/
inductive FinishReason
  | stop
  | length
  | other
  deriving DecidableEq, Repr

/-- `OpenAIService.calculateSummaryConfidence` (openai.ts, lines 272–277). -/
def calculateSummaryConfidence (finishReason : FinishReason) : ℚ :=
  match finishReason with
  | .stop => 19/20
  | .length => 4/5
  | .other => 7/10

/-- A key point as it appears in the parsed JSON service response
(every field may be missing). -/
structure RawKeyPoint where
  title : Option String
  description : Option String
  timestamp : Option ℚ
  importance : Option Importance
  deriving DecidableEq, Repr

/-- A chapter as it appears in the parsed JSON service response
(every field may be missing). -/
structure RawChapter where
  title : Option String
  start : Option ℚ
  endTime : Option ℚ
  summary : Option String
  keyPoints : Option (List String)
  deriving DecidableEq, Repr

/-- The parsed JSON object of the summarization service response
(`JSON.parse(content)` in `generateSummary`): every field may be absent. -/
structure ParsedResponse where
  overview : Option String
  keyTakeaways : Option (List String)
  keyPoints : Option (List RawKeyPoint)
  actionItems : Option (List String)
  quotes : Option (List String)
  chapters : Option (List RawChapter)
  tags : Option (List String)
  deriving DecidableEq, Repr

/-- `OpenAIService.processKeyPoints` (openai.ts, lines 231–238). The
source's `point.timestamp || undefined` forwards the value (a falsy `0`
becomes `undefined`; the `Option` model forwards `none`/`some`). -/
def processKeyPoints (keyPoints : List RawKeyPoint) : List KeyPoint :=
  keyPoints.map fun point =>
    { title := point.title.getD ""
      description := point.description.getD ""
      timestamp := point.timestamp
      importance := point.importance.getD .medium }

/-- `OpenAIService.processChapters` (openai.ts, lines 243–251). -/
def processChapters (chapters : List RawChapter) : List Chapter :=
  chapters.map fun chapter =>
    { title := chapter.title.getD ""
      start := chapter.start.getD 0
      endTime := chapter.endTime.getD 0
      summary := chapter.summary.getD ""
      keyPoints := chapter.keyPoints.getD [] }

/-- The response-object literal built in `generateSummary` (openai.ts,
lines 137–146): defaulted fields, `chapters` only when `options.timestamps`
is set (`options.timestamps ? processChapters(parsed.chapters || []) : undefined`),
confidence from the completion's finish reason. -/
def assembleSummarizationResponse (options : UploadOptions) (parsed : ParsedResponse)
    (finishReason : FinishReason) : SummarizationResponse :=
  { overview := parsed.overview.getD ""
    keyTakeaways := parsed.keyTakeaways.getD []
    keyPoints := processKeyPoints (parsed.keyPoints.getD [])
    actionItems := parsed.actionItems.getD []
    quotes := parsed.quotes.getD []
    chapters := if options.timestamps then some (processChapters (parsed.chapters.getD [])) else none
    tags := parsed.tags.getD []
    confidence := calculateSummaryConfidence finishReason }

/-- `generateSummary` (openai.ts, lines 100–167): the external call either
errors (service failure, missing content, or malformed JSON — the outer
catch rewraps the message) or yields a parsed object plus finish reason,
which is assembled into a `SummarizationResponse`. -/
def generateSummary (options : UploadOptions)
    (serviceResult : Except String (ParsedResponse × FinishReason)) :
    Except String SummarizationResponse :=
  match serviceResult with
  | .error e => .error ("Summarization failed: " ++ e)
  | .ok result => .ok (assembleSummarizationResponse options result.1 result.2)

/-- The verbose-JSON whisper result consumed by `transcribeAudio`
(openai.ts, lines 44–62): optional detected language, optional duration,
optional segment list. Per-segment confidence (`Math.exp(avg_logprob)`
when present) is carried as an opaque rational. -/
structure WhisperResult where
  text : String
  language : Option String
  duration : Option ℚ
  segments : Option (List Timestamp)
  deriving DecidableEq, Repr

/-- The response-object literal built in `transcribeAudio` (openai.ts,
lines 57–70): `segments || []`, `language || hint || 'en'`,
`duration || 0`, overall confidence from `calculateOverallConfidence`. -/
def assembleTranscription (hint : Option String) (t : WhisperResult) : TranscriptionResponse :=
  let segments := t.segments.getD []
  { text := t.text
    language := ((t.language).orElse (fun _ => hint)).getD "en"
    duration := t.duration.getD 0
    segments := segments
    confidence := calculateOverallConfidence segments }

/-- `transcribeAudio` (openai.ts, lines 29–93): the external call either
errors (the outer catch rewraps the message) or yields a whisper result
assembled into a `TranscriptionResponse`. The `/tmp` staging file it
writes is unlinked on both the success and the error path inside this
function and so never survives it. -/
def transcribeAudio (hint : Option String)
    (serviceResult : Except String WhisperResult) :
    Except String TranscriptionResponse :=
  match serviceResult with
  | .error e => .error ("Transcription failed: " ++ e)
  | .ok t => .ok (assembleTranscription hint t)

/-! ## `services/processor.ts`: paths, audio processing -/

/-- The characters strictly after the last occurrence of `c`, or `none`
when `c` does not occur. -/
def afterLast (c : Char) : List Char → Option (List Char)
  | [] => none
  | x :: xs =>
      match afterLast c xs with
      | some s => some s
      | none => if x = c then some xs else none

/-- `path.extname` on the characters of a basename: everything from the
last `.`, except that a dot at index 0 (hidden files) does not start an
extension and a dotless name has none. -/
def extnameChars : List Char → List Char
  | [] => []
  | _ :: rest =>
      match afterLast '.' rest with
      | some s => '.' :: s
      | none => []

/-- `path.extname`: the suffix of the basename (the part after the last
`/`) from its last `.`, or `""` when the basename has no dot or only a
leading dot. -/
def extname (p : String) : String :=
  String.mk (extnameChars ((afterLast '/' p.data).getD p.data))

/-- Replace the first occurrence of `pat` (non-empty) in a char list. -/
def replaceFirstChars (pat rep : List Char) : List Char → List Char
  | [] => []
  | x :: xs =>
      if pat.isPrefixOf (x :: xs) then rep ++ (x :: xs).drop pat.length
      else x :: replaceFirstChars pat rep xs

/-- JavaScript `String.prototype.replace` with a string pattern: replace
the first occurrence only; an empty pattern matches at position 0. -/
def replaceFirst (s pat rep : String) : String :=
  if pat = "" then rep ++ s
  else String.mk (replaceFirstChars pat.data rep.data s.data)

/-- `inputPath.replace(path.extname(inputPath), '_processed.wav')` — the
output path chosen by `processAudio` (processor.ts, line 305). -/
def processedWavPath (inputPath : String) : String :=
  replaceFirst inputPath (extname inputPath) "_processed.wav"

/-- `interface ProcessingOptions { convertToWav?; normalizeAudio?; ... }`
(the fields `processAudio` reads, with their `= false` defaults applied). -/
structure ProcessingOptions where
  convertToWav : Bool
  normalizeAudio : Bool
  deriving DecidableEq, Repr

/-- `ProcessorService.processAudio` (processor.ts, lines 297–341).
`execOk` is the outcome of the external ffmpeg invocation: on success the
converted `_processed.wav` path is returned, on tool failure the catch
swallows the error and the original input path is returned; when neither
conversion nor normalization is requested the input path is returned
without invoking the tool. -/
def processAudio (inputPath : String) (options : ProcessingOptions) (execOk : Bool) : String :=
  if !options.convertToWav && !options.normalizeAudio then inputPath
  else
    let outputPath := processedWavPath inputPath
    if execOk then outputPath else inputPath

/-! ## `services/processor.ts`: job updates and the registry -/

/-- One `updateJob(jobId, {...})` payload: exactly the fields the call
provides (`Object.assign` merge semantics — absent fields are untouched). -/
structure JobUpdate where
  status : Option JobStatus := none
  progress : Option Nat := none
  error : Option String := none
  setCompletedAt : Bool := false
  deriving DecidableEq, Repr

/-- `ProcessorService.updateJob` (processor.ts, lines 74–80) applied to a
job record: `Object.assign(job, updates, { updatedAt: new Date() })` —
provided fields overwrite, `updatedAt` is always refreshed (`now`). -/
def applyUpdate (job : ProcessingJob) (u : JobUpdate) (now : Nat) : ProcessingJob :=
  { job with
    status := u.status.getD job.status
    progress := u.progress.getD job.progress
    error := match u.error with
      | some e => some e
      | none => job.error
    completedAt := if u.setCompletedAt then some now else job.completedAt
    updatedAt := now }

/-- Apply a sequence of updates in order (each refreshes `updatedAt` to a
strictly later tick). -/
def applyUpdates (job : ProcessingJob) : List JobUpdate → ProcessingJob
  | [] => job
  | u :: us => applyUpdates (applyUpdate job u (job.updatedAt + 1)) us

/-- The sequence of job states observed while a sequence of updates is
applied: the initial state followed by the state after each update. -/
def stateTrace (job : ProcessingJob) : List JobUpdate → List ProcessingJob
  | [] => [job]
  | u :: us => job :: stateTrace (applyUpdate job u (job.updatedAt + 1)) us

/-- The statuses along a `stateTrace`. -/
def statusTrace (job : ProcessingJob) (us : List JobUpdate) : List JobStatus :=
  (stateTrace job us).map (fun j => j.status)

/-- The registry state of `ProcessorService`: the `jobs` map (association
list keyed by job id) and the FIFO `jobQueue` of ids. -/
structure Registry where
  jobs : List (String × ProcessingJob)
  queue : List String
  deriving DecidableEq, Repr

/-- Look a job up in the registry (`this.jobs.get(jobId)`). -/
def Registry.getJob (r : Registry) (jobId : String) : Option ProcessingJob :=
  (r.jobs.find? (fun p => p.1 = jobId)).map (fun p => p.2)

/-- Registry-level `updateJob` (processor.ts, lines 74–80): merge into the
stored record when the job exists, otherwise do nothing. -/
def Registry.updateJob (r : Registry) (jobId : String) (u : JobUpdate) (now : Nat) : Registry :=
  match r.getJob jobId with
  | none => r
  | some job =>
      { r with jobs := r.jobs.map (fun p => if p.1 = jobId then (p.1, applyUpdate job u now) else p) }

/-- `ProcessorService.cancelJob` (processor.ts, lines 424–442): reject
absent or terminal jobs; remove a queued job from the queue (splice of the
first index); then mark the record failed with the cancellation error. -/
def Registry.cancelJob (r : Registry) (jobId : String) (now : Nat) : Registry × Bool :=
  match r.getJob jobId with
  | none => (r, false)
  | some job =>
      if job.status = .completed ∨ job.status = .failed then (r, false)
      else
        let r :=
          if job.status = .queued then { r with queue := r.queue.erase jobId } else r
        (r.updateJob jobId { status := some .failed, error := some "Cancelled by user" } now, true)

/-- The update written by `cancelJob`: status and error only. -/
def cancelUpdate : JobUpdate :=
  { status := some .failed, error := some "Cancelled by user" }

/-! ## `services/processor.ts`: the pipeline (`processJob`) -/

/-- The outcomes of the external calls a single `processJob` run makes,
plus the configured upload directory. `metadata` is `getAudioMetadata`'s
result (`none`: the probe failed or its output was unparseable, processor.ts
lines 259–291). `normalizeOk` is the ffmpeg invocation in `processAudio`.
`transcription`/`summarization` are the whisper/chat service outcomes, and
`summaryId` stands for the generated summary id. -/
structure StageEnv where
  uploadDir : String
  metadata : Option AudioMetadata
  normalizeOk : Bool
  transcription : Except String WhisperResult
  summarization : Except String (ParsedResponse × FinishReason)
  summaryId : String
  deriving Repr

/-- The observable outcome of one `processJob` run: the sequence of
`updateJob` calls it makes, the temporary files it created that are still
on disk when it returns, the summary handed to `storeSummary` (if any),
and the caught exception message (if any). -/
structure RunResult where
  updates : List JobUpdate
  tempFiles : List String
  stored : Option Summary
  caught : Option String
  deriving Repr

/-- The `{ status: 'processing', progress: 0 }` update at line 122. -/
def startUpdate : JobUpdate := { status := some .processing, progress := some 0 }

/-- A bare progress update (`{ progress: n }`). -/
def progressUpdate (n : Nat) : JobUpdate := { progress := some n }

/-- The catch-block update (processor.ts, lines 233–236):
`{ status: 'failed', error: errorMessage }` — no progress write. -/
def failUpdate (msg : String) : JobUpdate := { status := some .failed, error := some msg }

/-- The success update (processor.ts, lines 217–221):
`{ status: 'completed', progress: 100, completedAt: new Date() }`. -/
def completeUpdate : JobUpdate :=
  { status := some .completed, progress := some 100, setCompletedAt := true }

/-- `ProcessorService.generateTitle` (processor.ts, lines 373–380). -/
def generateTitle (overview : String) : String :=
  let firstSentence := (overview.splitOn ".").headD ""
  if firstSentence.length > 60 then firstSentence.take 57 ++ "..."
  else firstSentence ++ (if overview.contains '.' then "" else "...")

/-- `transcript.split(/\s+/).length` (processor.ts, line 197): the number
of maximal non-whitespace runs, plus one for a leading and one for a
trailing whitespace boundary (JavaScript keeps those empty pieces); the
empty string splits to one piece. -/
def splitWsCount (s : String) : Nat :=
  if s = "" then 1
  else
    ((s.split Char.isWhitespace).filter (fun piece => piece ≠ "")).length
      + (if s.front.isWhitespace then 1 else 0)
      + (if s.back.isWhitespace then 1 else 0)

/-- The `finalSummary` object literal of `processJob` step 6 (processor.ts,
lines 175–203). -/
def mkSummary (env : StageEnv) (job : ProcessingJob) (transcription : TranscriptionResponse)
    (summary : SummarizationResponse) : Summary :=
  { id := env.summaryId
    userId := job.userId
    jobId := job.id
    title := generateTitle summary.overview
    originalUrl := job.url
    originalFileName := job.originalFile
    duration := transcription.duration
    language := transcription.language
    detailLevel := job.options.detail
    overview := summary.overview
    keyTakeaways := summary.keyTakeaways
    keyPoints := summary.keyPoints
    actionItems := summary.actionItems
    quotes := summary.quotes
    transcript := transcription.text
    timestamps := transcription.segments
    chapters := summary.chapters
    wordCount := splitWsCount transcription.text
    confidence := min transcription.confidence summary.confidence
    tags := summary.tags }

/-- `ProcessorService.processJob` (processor.ts, lines 114–243), run to
completion with the external outcomes fixed by `env`.

Step 1 (acquisition): a `file` job with a stored filename resolves to
`uploadDir/originalFile` and writes progress 10; a `url` job calls
`downloadAudioFromUrl`, which unconditionally throws
`'URL download not implemented yet'` (lines 249–253), so the progress-20
write is unreachable; otherwise `'No valid audio source provided'` is
thrown. Steps 2–6 mirror the source; every thrown message lands in the
catch block, which writes only status and error. Temp-file accounting: the
only file the pipeline creates is `processAudio`'s `_processed.wav` (when
its ffmpeg call succeeds); the success path unlinks it when it differs
from the input path (lines 209–214), the catch block unlinks nothing. -/
def processJobRun (env : StageEnv) (job : ProcessingJob) : RunResult :=
  let u0 : List JobUpdate := [startUpdate]
  -- Step 1: Get audio file
  match job.type, job.originalFile, job.url with
  | .url, _, some _ =>
      -- downloadAudioFromUrl throws before `shouldCleanup = true` and the
      -- progress-20 update are reached
      { updates := u0 ++ [failUpdate "URL download not implemented yet"]
        tempFiles := [], stored := none
        caught := some "URL download not implemented yet" }
  | .url, _, none | .file, none, _ =>
      { updates := u0 ++ [failUpdate "No valid audio source provided"]
        tempFiles := [], stored := none
        caught := some "No valid audio source provided" }
  | .file, some originalFile, _ =>
      let audioFilePath := env.uploadDir ++ "/" ++ originalFile
      let u1 := u0 ++ [progressUpdate 10]
      -- Step 2: Validate and get metadata
      match env.metadata with
      | none =>
          { updates := u1 ++ [failUpdate "Unable to read audio metadata"]
            tempFiles := [], stored := none
            caught := some "Unable to read audio metadata" }
      | some _ =>
          let u2 := u1 ++ [progressUpdate 30]
          -- Step 3: Process audio (convertToWav := true, normalizeAudio := true)
          let processedAudioPath :=
            processAudio audioFilePath { convertToWav := true, normalizeAudio := true } env.normalizeOk
          let created := if env.normalizeOk then [processedWavPath audioFilePath] else []
          let u3 := u2 ++ [progressUpdate 50]
          -- Step 4: Transcribe audio
          match transcribeAudio job.options.lang env.transcription with
          | .error msg =>
              { updates := u3 ++ [failUpdate msg]
                tempFiles := created, stored := none, caught := some msg }
          | .ok transcription =>
              let u4 := u3 ++ [progressUpdate 70]
              -- Step 5: Generate summary
              match generateSummary job.options env.summarization with
              | .error msg =>
                  { updates := u4 ++ [failUpdate msg]
                    tempFiles := created, stored := none, caught := some msg }
              | .ok summary =>
                  let u5 := u4 ++ [progressUpdate 90]
                  -- Step 6/7: assemble, store, clean up, mark completed
                  let finalSummary := mkSummary env job transcription summary
                  let remaining :=
                    if processedAudioPath ≠ audioFilePath
                    then created.filter (fun f => f ≠ processedAudioPath)
                    else created
                  { updates := u5 ++ [completeUpdate]
                    tempFiles := remaining
                    stored := some finalSummary
                    caught := none }

/-- The job record after a full uncancelled `processJob` run. -/
def finalJob (env : StageEnv) (job : ProcessingJob) : ProcessingJob :=
  applyUpdates job (processJobRun env job).updates

/-- `processQueue` (processor.ts, lines 85–107): the single worker shifts
ids off the FIFO queue and awaits `processJob` for each in turn;
`processJob` never throws (its body is wrapped in its own try/catch), so
the drain visits every queued job. Modelled on the dequeued jobs paired
with their stage environments. -/
def drainQueue (queue : List (ProcessingJob × StageEnv)) : List ProcessingJob :=
  queue.map (fun p => finalJob p.2 p.1)

/-- A `cancelJob` call arriving at suspension point `k` of a processing
run: the first `k` pipeline updates have been applied, the cancellation
update lands, then the pipeline (which never re-reads the status) applies
its remaining updates. -/
def updatesWithCancelAt (us : List JobUpdate) (k : Nat) : List JobUpdate :=
  us.take k ++ cancelUpdate :: us.drop k

/-- `progressMono p us = true` iff replaying the updates from progress `p`
never writes a progress value lower than the current one. -/
def progressMono : Nat → List JobUpdate → Bool
  | _, [] => true
  | p, u :: us => Nat.ble p (u.progress.getD p) && progressMono (u.progress.getD p) us

/-! ## Concrete sample inputs used by counterexamples and witnesses -/

/-- Options with `timestamps := false` (standard detail). -/
def stdOptions : UploadOptions := { lang := none, detail := .standard, timestamps := false }

/-- A freshly created `file` job (as `createJob` builds it: queued,
progress 0). -/
def sampleFileJob : ProcessingJob :=
  { id := "job_1"
    userId := "u1"
    type := .file
    status := .queued
    progress := 0
    originalFile := some "talk.mp3"
    url := none
    options := stdOptions
    error := none
    createdAt := 0
    updatedAt := 0
    completedAt := none }

/-- A freshly created `url` job. -/
def sampleUrlJob : ProcessingJob :=
  { sampleFileJob with
    id := "job_2"
    type := .url
    originalFile := none
    url := some "https://example.com/ep.mp3" }

/-- A summarization-service response that *does* contain chapter data. -/
def sampleParsed : ParsedResponse :=
  { overview := some "An overview"
    keyTakeaways := none
    keyPoints := none
    actionItems := none
    quotes := none
    chapters := some [{ title := some "Intro"
                        start := some 0
                        endTime := some 300
                        summary := some "s"
                        keyPoints := some ["k"] }]
    tags := none }

/-- An environment in which every external call succeeds (and the
summarization service returns chapter data). -/
def okEnv : StageEnv :=
  { uploadDir := "uploads"
    metadata := some { format := "mp3", duration := 10, size := 5 }
    normalizeOk := true
    transcription := .ok { text := "hello world"
                           language := some "en"
                           duration := some 10
                           segments := some [] }
    summarization := .ok (sampleParsed, .stop)
    summaryId := "summary_1" }

/-- As `okEnv`, but the transcription service call errors. -/
def transcriptionFailEnv : StageEnv := { okEnv with transcription := .error "boom" }

/-- A registry holding one already-completed job. -/
def completedRegistry : Registry :=
  { jobs := [("job_1", { sampleFileJob with status := .completed, progress := 100 })]
    queue := [] }

/-! ## Theorems -/

/-- **C5.** `estimateProcessingTime` computes exactly the spec's heuristic
(base 60s, ×0.7 for brief / ×1.5 for deep / unchanged for standard, ×1.2
additional when timestamps are requested, +30s flat for `url` sources,
rounded to an integer), and in particular yields 60 for
(standard, no timestamps, file) and 138 for (deep, timestamps, url). -/
theorem estimate_time_correct :
    (∀ request : UploadRequest,
        estimateProcessingTime request
          = estimateTimeSpec request.options.detail request.options.timestamps request.type)
    ∧ estimateProcessingTime ⟨.file, some "a.mp3", none, ⟨none, .standard, false⟩⟩ = 60
    ∧ estimateProcessingTime ⟨.url, none, some "u", ⟨none, .deep, true⟩⟩ = 138 := by
  refine ⟨?_, ?_, ?_⟩
  · rintro ⟨ty, file, url, ⟨lang, detail, ts⟩⟩
    cases detail <;> cases ts <;> cases ty <;>
      simp only [estimateProcessingTime, estimateTimeSpec] <;>
      norm_num [jsRound] <;>
      simp <;> norm_num
  · simp only [estimateProcessingTime]
    simp
    norm_num [jsRound]
  · simp only [estimateProcessingTime]
    simp
    norm_num [jsRound]

/-- **C9.** When no transcript segment carries a confidence value (in
particular for an empty segment list), the overall confidence is the fixed
default 0.8 — which is nonzero; when confidences are present it is their
average rounded to two decimal places. -/
theorem confidence_default_and_average (segments : List Timestamp) :
    (segments.filterMap (fun s => s.confidence) = [] →
        calculateOverallConfidence segments = 4/5)
    ∧ ((4 : ℚ)/5 ≠ 0)
    ∧ (segments.filterMap (fun s => s.confidence) ≠ [] →
        calculateOverallConfidence segments
          = jsRound2 ((segments.filterMap (fun s => s.confidence)).sum
              / (segments.filterMap (fun s => s.confidence)).length)) := by
  refine ⟨?_, by norm_num, ?_⟩
  · intro h
    unfold calculateOverallConfidence
    rcases segments with _ | ⟨s, rest⟩
    · simp
    · simp only [List.length_eq_zero] at *
      simp [h]
  · intro h
    have hs : segments ≠ [] := by
      intro h0
      exact h (by simp [h0])
    unfold calculateOverallConfidence
    simp only [List.length_eq_zero]
    simp [hs, h]

/-- Witness for **C9** at concrete inputs: the empty segment list yields
0.8, and two segments with confidences 1/2 and 1/3 yield 0.42. -/
theorem confidence_default_and_average_witness :
    calculateOverallConfidence [] = 4/5
    ∧ calculateOverallConfidence
        [⟨0, 1, "a", some (1/2)⟩, ⟨1, 2, "b", some (1/3)⟩] = 21/50 := by
  refine ⟨(confidence_default_and_average []).1 rfl, ?_⟩
  have h := (confidence_default_and_average
      [⟨0, 1, "a", some (1/2)⟩, ⟨1, 2, "b", some (1/3)⟩]).2.2 (by simp)
  rw [h]
  simp only [List.filterMap]
  simp
  norm_num [jsRound2, jsRound]

/-- **C8.** When `processAudio`'s external tool invocation fails, the
original unnormalized input path is returned instead of an exception being
thrown; when the tool succeeds, the converted `_processed.wav` path is
returned; and the pipeline's job updates (hence the final job record) do
not depend on the normalization outcome at all, so a normalization failure
never causes a job to be marked failed. -/
theorem normalization_soft_degrade (inputPath : String) (options : ProcessingOptions)
    (h : options.convertToWav = true ∨ options.normalizeAudio = true) :
    processAudio inputPath options false = inputPath
    ∧ processAudio inputPath options true = processedWavPath inputPath
    ∧ (∀ (env : StageEnv) (job : ProcessingJob) (b : Bool),
        (processJobRun { env with normalizeOk := b } job).updates
          = (processJobRun env job).updates
        ∧ finalJob { env with normalizeOk := b } job = finalJob env job) := by
  have hcond : (!options.convertToWav && !options.normalizeAudio) = false := by
    rcases h with h | h <;> simp [h]
  refine ⟨by simp [processAudio, hcond], by simp [processAudio, hcond], ?_⟩
  intro env job b
  obtain ⟨id, uid, ty, st, pr, ofile, url, opts, err, ca, ua, cta⟩ := job
  obtain ⟨ud, md, nk, tr, sm, sid⟩ := env
  cases ty <;> cases ofile <;> cases url <;> cases md <;> cases tr <;> cases sm <;>
    simp [processJobRun, finalJob, transcribeAudio, generateSummary]

/-- Witness for **C8**: on `uploads/talk.mp3` with conversion and
normalization requested, a failed tool run returns the input path and a
successful one returns the `_processed.wav` path. -/
theorem normalization_soft_degrade_witness :
    processAudio "uploads/talk.mp3" ⟨true, true⟩ false = "uploads/talk.mp3"
    ∧ processAudio "uploads/talk.mp3" ⟨true, true⟩ true
        = processedWavPath "uploads/talk.mp3" := by
  have h := normalization_soft_degrade "uploads/talk.mp3" ⟨true, true⟩ (Or.inl rfl)
  exact ⟨h.1, h.2.1⟩

/-- **C6, counterexample.** For a job with `timestamps = false` processed
against a summarization response that does contain chapter data, the
stored Summary's `chapters` field is `undefined` (`none`) — not the empty
list the claim asserts. -/
theorem chapters_empty_list_counterexample :
    sampleFileJob.options.timestamps = false
    ∧ sampleParsed.chapters ≠ none
    ∧ (processJobRun okEnv sampleFileJob).stored.map (fun s => s.chapters) = some none
    ∧ (processJobRun okEnv sampleFileJob).stored.map (fun s => s.chapters)
        ≠ some (some []) := by
  refine ⟨rfl, by simp [sampleParsed], rfl, ?_⟩
  intro hcontra
  rw [show (processJobRun okEnv sampleFileJob).stored.map (fun s => s.chapters)
        = some none from rfl] at hcontra
  simp at hcontra

/-- **C6, amended.** When `timestamps = false`, the summarization
response's `chapters` field — and hence the stored Summary's — is absent
(`undefined`/`none`), regardless of detail level and of any chapter data
in the service response; chapter data never leaks into the result. -/
theorem chapters_absent_without_timestamps :
    (∀ (options : UploadOptions) (parsed : ParsedResponse) (finishReason : FinishReason),
        options.timestamps = false →
        (assembleSummarizationResponse options parsed finishReason).chapters = none)
    ∧ (∀ (env : StageEnv) (job : ProcessingJob) (s : Summary),
        job.options.timestamps = false →
        (processJobRun env job).stored = some s → s.chapters = none) := by
  constructor
  · intro options parsed finishReason h
    simp [assembleSummarizationResponse, h]
  · intro env job s h hst
    obtain ⟨id, uid, ty, st, pr, ofile, url, opts, err, ca, ua, cta⟩ := job
    obtain ⟨ud, md, nk, tr, sm, sid⟩ := env
    cases ty <;> cases ofile <;> cases url <;> cases md <;> cases tr <;> cases sm <;>
      simp [processJobRun, transcribeAudio, generateSummary] at hst
    all_goals
      rw [← hst]
      simp at h
      simp [mkSummary, assembleSummarizationResponse, h]

/-- Witness for the amended **C6** at a concrete input: with
`timestamps = false` and chapter data in the response, the assembled
response's `chapters` is `none`. -/
theorem chapters_absent_without_timestamps_witness :
    (assembleSummarizationResponse stdOptions sampleParsed .stop).chapters = none :=
  chapters_absent_without_timestamps.1 stdOptions sampleParsed .stop rfl

/-- **C7.** A `url` job (remote fetch being unimplemented) transitions
queued → processing → failed, with the stored error naming the
unimplemented URL download; it never reaches `completed`. -/
theorem url_job_fails_unsupported (env : StageEnv) (job : ProcessingJob) (u : String)
    (h1 : job.type = .url) (h2 : job.url = some u) (h3 : job.status = .queued) :
    statusTrace job (processJobRun env job).updates
      = [.queued, .processing, .failed]
    ∧ (finalJob env job).status = .failed
    ∧ (finalJob env job).error = some "URL download not implemented yet"
    ∧ JobStatus.completed ∉ statusTrace job (processJobRun env job).updates := by
  obtain ⟨id, uid, ty, st, pr, ofile, url, opts, err, ca, ua, cta⟩ := job
  cases ty
  · exact absurd h1 (by simp)
  · simp only at h2 h3
    subst h3
    rcases url with _ | u'
    · exact absurd h2 (by simp)
    · refine ⟨?_, ?_, ?_, ?_⟩ <;>
        simp [processJobRun, statusTrace, stateTrace, applyUpdate, applyUpdates,
              startUpdate, failUpdate, finalJob]

/-- Witness for **C7**: the sample `url` job against the all-ok
environment. -/
theorem url_job_fails_unsupported_witness :
    statusTrace sampleUrlJob (processJobRun okEnv sampleUrlJob).updates
      = [.queued, .processing, .failed]
    ∧ (finalJob okEnv sampleUrlJob).error = some "URL download not implemented yet" := by
  have h := url_job_fails_unsupported okEnv sampleUrlJob "https://example.com/ep.mp3" rfl rfl rfl
  exact ⟨h.1, h.2.2.1⟩

/-- **C2.** Whenever a pipeline stage throws (any failure the run catches),
the job ends `failed` with exactly the caught message stored as its error,
and draining a queue around that job still processes every other queued
job, each with its own independent outcome. -/
theorem failure_isolated_and_recorded (env : StageEnv) (job : ProcessingJob) (msg : String)
    (h : (processJobRun env job).caught = some msg) :
    (finalJob env job).status = .failed
    ∧ (finalJob env job).error = some msg
    ∧ ∀ pre post, drainQueue (pre ++ (job, env) :: post)
        = drainQueue pre ++ finalJob env job :: drainQueue post := by
  refine ⟨?_, ?_, fun pre post => by simp [drainQueue]⟩ <;>
  · obtain ⟨id, uid, ty, st, pr, ofile, url, opts, err, ca, ua, cta⟩ := job
    obtain ⟨ud, md, nk, tr, sm, sid⟩ := env
    cases ty <;> cases ofile <;> cases url <;> cases md <;> cases tr <;> cases sm <;>
      simp [processJobRun, transcribeAudio, generateSummary] at h <;>
      subst h <;>
      simp [finalJob, processJobRun, transcribeAudio, generateSummary, applyUpdates,
            applyUpdate, startUpdate, progressUpdate, failUpdate]

/-- Witness for **C2**: a failing transcription service leaves the sample
job failed with the wrapped service message. -/
theorem failure_isolated_and_recorded_witness :
    (finalJob transcriptionFailEnv sampleFileJob).status = .failed
    ∧ (finalJob transcriptionFailEnv sampleFileJob).error
        = some "Transcription failed: boom" := by
  have h := failure_isolated_and_recorded transcriptionFailEnv sampleFileJob
    "Transcription failed: boom" rfl
  exact ⟨h.1, h.2.1⟩

/-- **C10.** The catch-block update writes only status and error: the last
update of a failing run is exactly `failUpdate msg` (whose progress field
is `none`), so the failed job's progress equals whatever the preceding
updates left — the boundary value of the last completed stage (one of
0, 10, 50, 70) — and the job's identity fields are untouched. -/
theorem failure_preserves_progress (env : StageEnv) (job : ProcessingJob) (msg : String)
    (h : (processJobRun env job).caught = some msg) :
    (processJobRun env job).updates.getLast? = some (failUpdate msg)
    ∧ (failUpdate msg).progress = none
    ∧ (finalJob env job).progress
        = (applyUpdates job (processJobRun env job).updates.dropLast).progress
    ∧ (finalJob env job).progress ∈ ([0, 10, 50, 70] : List Nat)
    ∧ (finalJob env job).id = job.id
    ∧ (finalJob env job).userId = job.userId
    ∧ (finalJob env job).type = job.type
    ∧ (finalJob env job).options = job.options
    ∧ (finalJob env job).completedAt = job.completedAt := by
  obtain ⟨id, uid, ty, st, pr, ofile, url, opts, err, ca, ua, cta⟩ := job
  obtain ⟨ud, md, nk, tr, sm, sid⟩ := env
  cases ty <;> cases ofile <;> cases url <;> cases md <;> cases tr <;> cases sm <;>
    simp [processJobRun, transcribeAudio, generateSummary] at h <;>
    subst h <;>
    simp [finalJob, processJobRun, transcribeAudio, generateSummary, applyUpdates,
          applyUpdate, startUpdate, progressUpdate, failUpdate]

/-- Witness for **C10**: with the transcription stage failing, the sample
job's failure update carries no progress and the record keeps progress 50
(the normalization boundary). -/
theorem failure_preserves_progress_witness :
    (processJobRun transcriptionFailEnv sampleFileJob).updates.getLast?
        = some (failUpdate "Transcription failed: boom")
    ∧ (finalJob transcriptionFailEnv sampleFileJob).progress ∈ ([0, 10, 50, 70] : List Nat) := by
  have h := failure_preserves_progress transcriptionFailEnv sampleFileJob
    "Transcription failed: boom" rfl
  exact ⟨h.1, h.2.2.2.1⟩

/-- Inserting an update that carries no progress write (such as the
cancellation update) at any position preserves progress monotonicity. -/
theorem progressMono_insertAt (u : JobUpdate) (hu : u.progress = none) :
    ∀ (us : List JobUpdate) (p k : Nat), progressMono p us = true →
      progressMono p (us.take k ++ u :: us.drop k) = true := by
  intro us
  induction us with
  | nil =>
      intro p k h
      simp [progressMono, hu, Nat.ble_eq]
  | cons v vs ih =>
      intro p k h
      cases k with
      | zero =>
          simpa [progressMono, hu, Nat.ble_eq] using h
      | succ k =>
          rw [List.take_succ_cons, List.drop_succ_cons, List.cons_append]
          rw [progressMono, Bool.and_eq_true] at h ⊢
          exact ⟨h.1, ih _ k h.2⟩

/-- A `stateTrace` always starts at the initial job state. -/
theorem stateTrace_head_eq (job : ProcessingJob) (us : List JobUpdate) :
    (stateTrace job us).head? = some job := by
  cases us <;> rfl

/-- `progressMono` certifies that the progress values along the observed
state trace form a non-decreasing chain. -/
theorem chain_le_of_progressMono (us : List JobUpdate) :
    ∀ job : ProcessingJob, progressMono job.progress us = true →
      List.Chain' (fun a b => a ≤ b) ((stateTrace job us).map (fun j => j.progress)) := by
  induction us with
  | nil =>
      intro job h
      simp [stateTrace]
  | cons u us ih =>
      intro job h
      rw [progressMono, Bool.and_eq_true, Nat.ble_eq] at h
      rw [stateTrace, List.map_cons]
      apply List.chain'_cons'.mpr
      constructor
      · intro b hb
        rw [List.head?_map, stateTrace_head_eq] at hb
        have hb2 : (applyUpdate job u (job.updatedAt + 1)).progress = b := by
          simpa using hb
        subst hb2
        simpa [applyUpdate] using h.1
      · apply ih
        have hpr : (applyUpdate job u (job.updatedAt + 1)).progress
            = u.progress.getD job.progress := rfl
        rw [hpr]
        exact h.2

/-- **C4.** Starting from a freshly created job (progress 0), the progress
values observed along any run — even with a cancellation update landing at
an arbitrary suspension point — form a non-decreasing chain, and the
progress values the pipeline writes are an in-order prefix of
0, 10 (or 20), 30, 50, 70, 90, 100. -/
theorem progress_monotone (env : StageEnv) (job : ProcessingJob) (k : Nat)
    (h : job.progress = 0) :
    List.Chain' (fun a b => a ≤ b)
      ((stateTrace job (updatesWithCancelAt (processJobRun env job).updates k)).map
        (fun j => j.progress))
    ∧ ((processJobRun env job).updates.filterMap (fun u => u.progress)
          <+: [0, 10, 30, 50, 70, 90, 100]
        ∨ (processJobRun env job).updates.filterMap (fun u => u.progress)
          <+: [0, 20, 30, 50, 70, 90, 100]) := by
  constructor
  · apply chain_le_of_progressMono
    unfold updatesWithCancelAt
    apply progressMono_insertAt cancelUpdate rfl
    rw [h]
    obtain ⟨id, uid, ty, st, pr, ofile, url, opts, err, ca, ua, cta⟩ := job
    obtain ⟨ud, md, nk, tr, sm, sid⟩ := env
    cases ty <;> cases ofile <;> cases url <;> cases md <;> cases tr <;> cases sm <;>
      simp [processJobRun, transcribeAudio, generateSummary, progressMono,
            startUpdate, progressUpdate, failUpdate, completeUpdate, Nat.ble_eq]
  · obtain ⟨id, uid, ty, st, pr, ofile, url, opts, err, ca, ua, cta⟩ := job
    obtain ⟨ud, md, nk, tr, sm, sid⟩ := env
    cases ty <;> cases ofile <;> cases url <;> cases md <;> cases tr <;> cases sm <;>
      simp [processJobRun, transcribeAudio, generateSummary,
            startUpdate, progressUpdate, failUpdate, completeUpdate]

/-- Witness for **C4**: the sample job's successful run with a
cancellation landing after four updates. -/
theorem progress_monotone_witness :
    List.Chain' (fun a b => a ≤ b)
      ((stateTrace sampleFileJob
          (updatesWithCancelAt (processJobRun okEnv sampleFileJob).updates 4)).map
        (fun j => j.progress))
    ∧ ((processJobRun okEnv sampleFileJob).updates.filterMap (fun u => u.progress)
          <+: [0, 10, 30, 50, 70, 90, 100]
        ∨ (processJobRun okEnv sampleFileJob).updates.filterMap (fun u => u.progress)
          <+: [0, 20, 30, 50, 70, 90, 100]) :=
  progress_monotone okEnv sampleFileJob 4 rfl

/-- **C1, counterexample.** Cancelling the sample job at a suspension
point where it is `processing` (after four pipeline updates) marks it
failed, yet the pipeline's remaining updates later overwrite the record
with `completed`: the observed status trace reaches `failed` at index 5
and `completed` at index 8, so both terminal statuses are reached for one
job. -/
theorem cancel_overwritten_by_completed :
    ((stateTrace sampleFileJob
        ((processJobRun okEnv sampleFileJob).updates.take 4)).getLast?).map
        (fun j => j.status) = some .processing
    ∧ (statusTrace sampleFileJob
        (updatesWithCancelAt (processJobRun okEnv sampleFileJob).updates 4))[5]?
        = some .failed
    ∧ (statusTrace sampleFileJob
        (updatesWithCancelAt (processJobRun okEnv sampleFileJob).updates 4))[8]?
        = some .completed :=
  ⟨rfl, rfl, rfl⟩

/-- **C1, amended.** Absent a cancellation while the job is processing,
at most one terminal status is ever written per run (the status writes are
exactly `processing` then one terminal status); and a `completed` job is
never demoted to `failed` by cancellation — `cancelJob` rejects it and
leaves the registry unchanged. A cancellation during processing, however,
can be followed by the pipeline writing `completed` (see the
counterexample). -/
theorem terminal_exclusive_amended :
    (∀ (env : StageEnv) (job : ProcessingJob),
        (processJobRun env job).updates.filterMap (fun u => u.status)
            = [.processing, .completed]
        ∨ (processJobRun env job).updates.filterMap (fun u => u.status)
            = [.processing, .failed])
    ∧ (∀ (r : Registry) (jobId : String) (job : ProcessingJob) (now : Nat),
        r.getJob jobId = some job → job.status = .completed →
        r.cancelJob jobId now = (r, false)) := by
  constructor
  · intro env job
    obtain ⟨id, uid, ty, st, pr, ofile, url, opts, err, ca, ua, cta⟩ := job
    obtain ⟨ud, md, nk, tr, sm, sid⟩ := env
    cases ty <;> cases ofile <;> cases url <;> cases md <;> cases tr <;> cases sm <;>
      simp [processJobRun, transcribeAudio, generateSummary,
            startUpdate, progressUpdate, failUpdate, completeUpdate]
  · intro r jobId job now hget hst
    simp [Registry.cancelJob, hget, hst]

/-- Witness for the amended **C1**: cancelling the already-completed job
in the sample registry is rejected and changes nothing. -/
theorem terminal_exclusive_amended_witness :
    completedRegistry.cancelJob "job_1" 5 = (completedRegistry, false) :=
  terminal_exclusive_amended.2 completedRegistry "job_1"
    { sampleFileJob with status := .completed, progress := 100 } 5 rfl rfl

/-- **C3.** Evaluating the pipeline at the failing input: a `file` job
whose normalization succeeded (creating `uploads/talk_processed.wav`) and
whose transcription call then threw ends in the terminal status `failed`
with that temporary file still on disk — the catch path performs no
cleanup — whereas the success path of the very same job deletes it. -/
theorem temp_file_leak_on_failure :
    (finalJob transcriptionFailEnv sampleFileJob).status = .failed
    ∧ (processJobRun transcriptionFailEnv sampleFileJob).tempFiles
        = ["uploads/talk_processed.wav"]
    ∧ (processJobRun okEnv sampleFileJob).tempFiles = [] :=
  ⟨rfl, rfl, rfl⟩

end SynthSummarize
